import Mathlib

/-!
# Verification of the Tool Bridge (`src/app.py`)

A shallow embedding of the tool-bridge code of `src/app.py` — the MCP
client helpers, the schema conversion, the tool cache and the two-round
chat orchestration — together with theorems settling the spec's claims
about it.

Python/JSON values are modelled by the mutual inductive `PyVal` /
`PyList` / `PyDict` (strings, integers, booleans, `None`, lists and
string-keyed dictionaries).  Fallible Python code is modelled with
`Option` / `Except`; a raised exception is `Option.none` or
`Except.error`.
-/

mutual
/-- A Python/JSON value: string, integer, boolean, `None`, list or dict. -/
inductive PyVal where
  | pstr (s : String)
  | pint (n : Int)
  | pbool (b : Bool)
  | pnone
  | plist (xs : PyList)
  | pdict (kvs : PyDict)
  deriving Repr, DecidableEq

inductive PyList where
  | nil
  | cons (x : PyVal) (xs : PyList)
  deriving Repr, DecidableEq

inductive PyDict where
  | dnil
  | dcons (k : String) (v : PyVal) (rest : PyDict)
  deriving Repr, DecidableEq
end

/-- View a `PyList` as a Lean list of values. -/
def PyList.toList : PyList → List PyVal
  | .nil => []
  | .cons x xs => x :: xs.toList

/-- Build a `PyList` from a Lean list of values. -/
def PyList.ofList : List PyVal → PyList
  | [] => .nil
  | x :: xs => .cons x (PyList.ofList xs)

/-- View a `PyDict` as an association list. -/
def PyDict.toAList : PyDict → List (String × PyVal)
  | .dnil => []
  | .dcons k v rest => (k, v) :: rest.toAList

/-- Build a `PyDict` from an association list. -/
def PyDict.ofAList : List (String × PyVal) → PyDict
  | [] => .dnil
  | (k, v) :: rest => .dcons k v (PyDict.ofAList rest)

/-- `d.get k`: Python `dict.get(key)`, `None`-free version returning
`Option` (keys are unique in a Python dict, so first match suffices). -/
def PyDict.get : PyDict → String → Option PyVal
  | .dnil, _ => none
  | .dcons k v rest, key => if k = key then some v else rest.get key

/-- Generic association-list lookup (used for header dicts and the tool
cache, whose values are not `PyVal`s). -/
def alistGet {α : Type} : List (String × α) → String → Option α
  | [], _ => none
  | (k, v) :: rest, key => if k = key then some v else alistGet rest key

/-- Python truthiness: `None`, `""`, `0`, `False`, `[]` and `{}` are
falsy, everything else truthy. -/
def pyTruthy : PyVal → Bool
  | .pstr s => s ≠ ""
  | .pint n => n ≠ 0
  | .pbool b => b
  | .pnone => false
  | .plist xs => xs ≠ .nil
  | .pdict kvs => kvs ≠ .dnil

mutual
/-- Python `str()` of a value (display form; the exact rendering of
nested containers is a modelling choice, only its existence matters). -/
def pyStr : PyVal → String
  | .pstr s => s
  | .pint n => toString n
  | .pbool b => if b then "True" else "False"
  | .pnone => "None"
  | .plist xs => "[" ++ pyStrList xs ++ "]"
  | .pdict kvs => "\x7b" ++ pyStrDict kvs ++ "\x7d"

def pyStrList : PyList → String
  | .nil => ""
  | .cons x .nil => pyStr x
  | .cons x xs => pyStr x ++ ", " ++ pyStrList xs

def pyStrDict : PyDict → String
  | .dnil => ""
  | .dcons k v .dnil => k ++ ": " ++ pyStr v
  | .dcons k v rest => k ++ ": " ++ pyStr v ++ ", " ++ pyStrDict rest
end

mutual
/-- Python `json.dumps` of a value (default separators). -/
def jsonDumps : PyVal → String
  | .pstr s => "\"" ++ s ++ "\""
  | .pint n => toString n
  | .pbool b => if b then "true" else "false"
  | .pnone => "null"
  | .plist xs => "[" ++ jsonDumpsList xs ++ "]"
  | .pdict kvs => "\x7b" ++ jsonDumpsDict kvs ++ "\x7d"

def jsonDumpsList : PyList → String
  | .nil => ""
  | .cons x .nil => jsonDumps x
  | .cons x xs => jsonDumps x ++ ", " ++ jsonDumpsList xs

def jsonDumpsDict : PyDict → String
  | .dnil => ""
  | .dcons k v .dnil => "\"" ++ k ++ "\": " ++ jsonDumps v
  | .dcons k v rest => "\"" ++ k ++ "\": " ++ jsonDumps v ++ ", " ++ jsonDumpsDict rest
end

/-! ## Result Parser — the tail of `mcp_call_tool` (`src/app.py` 249–270) -/

/-- `item.get("type") == "text"` for a dict item: true exactly when the
value under `"type"` is the string `"text"`. -/
def isTextType (o : Option PyVal) : Bool :=
  match o with
  | some (.pstr s) => s = "text"
  | _ => false

/-- The value appended to `texts` for one content element
(`src/app.py` 256–265): a dict typed `"text"` contributes
`item.get("text", "")`; a dict merely carrying `"text"` contributes
`item["text"]`; anything else contributes `str(item)`. -/
def itemText (item : PyVal) : PyVal :=
  match item with
  | .pdict kvs =>
    if isTextType (kvs.get "type") then (kvs.get "text").getD (.pstr "")
    else
      match kvs.get "text" with
      | some v => v
      | none => .pstr (pyStr item)
  | v => .pstr (pyStr v)

/-- The string content of a value, when it is a string. -/
def asStr : PyVal → Option String
  | .pstr s => some s
  | _ => none

/-- `"\n".join(texts)`: succeeds only when every element is a string
(Python raises `TypeError` otherwise, modelled by `none`). -/
def joinTexts (ts : List PyVal) : Option String :=
  (ts.mapM asStr).map (String.intercalate "\n")

/-- The result-normalization tail of `mcp_call_tool`
(`src/app.py` 249–270): flatten a `content` list of parts into one
string; return the result unchanged when no flattening applies.
`none` models a raised `TypeError` from joining non-strings. -/
def parse_tool_result (result : PyVal) : Option PyVal :=
  match result with
  | .pdict kvs =>
    match kvs.get "content" with
    | some (.plist content) =>
      if content.toList.length > 0 then
        match joinTexts (content.toList.map itemText) with
        | some s => some (.pstr s)
        | none => none
      else some result
    | some _ => some result
    | none => some result
  | v => some v

/-- Whether a value is a string literal. -/
def isPstr : PyVal → Bool
  | .pstr _ => true
  | _ => false

/-- Spec-side description of one content element's extracted text,
following the claim's words: the element's `text` when it is text-typed
or otherwise carries a `text` field, else the stringification of the
element. -/
def specElementText (item : PyVal) : String :=
  match item with
  | .pdict kvs =>
    if isTextType (kvs.get "type") then
      match kvs.get "text" with
      | some (.pstr t) => t
      | _ => ""
    else
      match kvs.get "text" with
      | some (.pstr t) => t
      | some _ => ""
      | none => pyStr item
  | v => pyStr v

/-- A content element is claim-well-formed when any `text` field the
parser would consult holds a string (so that Python's `"\n".join` is
defined and the claim's phrase "the element's text" denotes). -/
def claimWF (item : PyVal) : Bool :=
  match item with
  | .pdict kvs =>
    if isTextType (kvs.get "type") then isPstr ((kvs.get "text").getD (.pstr ""))
    else
      match kvs.get "text" with
      | some v => isPstr v
      | none => true
  | _ => true

/-! ## Schema conversion — `convert_mcp_tool_to_openai` (`src/app.py` 335–361) -/

/-- The per-property schema rewrite of `convert_mcp_tool_to_openai`
(`src/app.py` 344–347): keep `type` (defaulting to `"string"`) and
`description` (defaulting to `""`); every other key of the source node
is dropped. -/
def normalizeProp (prop_def : PyDict) : PyDict :=
  .dcons "type" ((prop_def.get "type").getD (.pstr "string"))
    (.dcons "description" ((prop_def.get "description").getD (.pstr "")) .dnil)

/-- Rewrite each property of an object schema via `normalizeProp`
(`src/app.py` 343–347); a non-dict property definition makes the Python
loop raise (`none`). -/
def normalizeProps : List (String × PyVal) → Option (List (String × PyVal))
  | [] => some []
  | (k, .pdict d) :: rest =>
    (normalizeProps rest).map (fun r => (k, .pdict (normalizeProp d)) :: r)
  | _ => none

/-- Python `o == s` for an optional value against a string literal:
true exactly when the value is present and is that string. -/
def optValEqStr (o : Option PyVal) (s : String) : Bool :=
  match o with
  | some (.pstr t) => t = s
  | _ => false

/-- `convert_mcp_tool_to_openai` (`src/app.py` 335–361): build the
OpenAI function spec from an MCP tool definition.  `none` models a
raised exception (non-dict `inputSchema`, `properties` or property
definition). -/
def convert_mcp_tool_to_openai (mcp_tool : PyDict) : Option PyVal := do
  let props_req : List (String × PyVal) × PyVal ←
    match mcp_tool.get "inputSchema" with
    | none => some ([], .plist .nil)
    | some (.pdict schema) =>
      if optValEqStr (schema.get "type") "object" ∧ (schema.get "properties").isSome then
        match schema.get "properties" with
        | some (.pdict props) =>
          (normalizeProps props.toAList).map
            (fun ps => (ps, (schema.get "required").getD (.plist .nil)))
        | _ => none
      else some ([], .plist .nil)
    | some _ => none
  pure (.pdict (.dcons "type" (.pstr "function")
    (.dcons "function" (.pdict (.dcons "name" ((mcp_tool.get "name").getD (.pstr ""))
      (.dcons "description" ((mcp_tool.get "description").getD (.pstr ""))
        (.dcons "parameters" (.pdict (.dcons "type" (.pstr "object")
          (.dcons "properties" (.pdict (PyDict.ofAList props_req.1))
            (.dcons "required" props_req.2 .dnil)))) .dnil)))) .dnil)))

/-! ## Tool Definition Cache — `get_openai_functions` (`src/app.py` 372–391) -/

/-- `get_openai_functions` (`src/app.py` 372–382), with the cache made
an explicit association list and the upstream `get_mcp_tools` call
modelled by its outcome `fetch` (`Except.error` = raised exception).
Returns the updated cache together with the returned list.  On a miss
the fetched tools are converted; a raised fetch or conversion is caught
and an empty list is stored and returned. -/
def get_openai_functions (cache : List (String × List PyVal)) (token : String)
    (fetch : Except String (List PyDict)) :
    List (String × List PyVal) × List PyVal :=
  match alistGet cache token with
  | some fns => (cache, fns)
  | none =>
    match fetch with
    | .ok tools =>
      match tools.mapM convert_mcp_tool_to_openai with
      | some fns => (cache ++ [(token, fns)], fns)
      | none => (cache ++ [(token, [])], [])
    | .error _ => (cache ++ [(token, [])], [])

/-! ## Session Transport — `_get_request_id` / `_mcp_request`
(`src/app.py` 115–215) -/

/-- `_get_request_id` (`src/app.py` 117–120): increment the counter and
return the new value, as a state transformer on the counter. -/
def getRequestId (s : Nat) : Nat × Nat := (s + 1, s + 1)

/-- The content type of the HTTP response to a `_mcp_request` POST,
as dispatched on at `src/app.py` 152–192. -/
inductive ContentTypeKind where
  | json
  | sse
  | other
  deriving Repr, DecidableEq

/-- The JSON-RPC ids sent on the wire by one `_mcp_request` call whose
envelope got id `i`: the first POST (`src/app.py` 143–148) always sends
`i`; when the response is `text/event-stream` the same payload is
POSTed a second time through the SSE client (`src/app.py` 174–177). -/
def wireIdsOfCall (ct : ContentTypeKind) (i : Nat) : List Nat :=
  match ct with
  | .sse => [i, i]
  | _ => [i]

/-- The envelope id of each `_mcp_request` call in a sequence of calls,
starting from counter state `s` (one fresh id per call,
`src/app.py` 125–130). -/
def envelopeIds (s : Nat) : List ContentTypeKind → List Nat
  | [] => []
  | _ :: rest => (s + 1) :: envelopeIds (s + 1) rest

/-- All JSON-RPC ids sent on the wire by a sequence of `_mcp_request`
calls with the given response content types, starting from counter
state `s`. -/
def wireTrace (s : Nat) : List ContentTypeKind → List Nat
  | [] => []
  | ct :: rest => wireIdsOfCall ct (s + 1) ++ wireTrace (s + 1) rest

/-- The headers of one `_mcp_request` POST (`src/app.py` 132–139):
the fixed base headers, plus `mcp-session-id` exactly when the
`session_id` argument is truthy. -/
def requestHeaders (token : String) (session_id : PyVal) : List (String × String) :=
  [("Authorization", "Bearer " ++ token),
   ("Content-Type", "application/json"),
   ("Accept", "application/json, text/event-stream")] ++
  (if pyTruthy session_id then [("mcp-session-id", pyStr session_id)] else [])

/-- The Python `error_msg` of `src/app.py` 160–164 / 184–188 as it is
interpolated into the raised message: `error_info.get("message",
str(error_info))` for a dict, `str(error_info)` otherwise. -/
def mcpErrorText (error_info : PyVal) : String :=
  match error_info with
  | .pdict kvs => pyStr ((kvs.get "message").getD (.pstr (pyStr (.pdict kvs))))
  | v => pyStr v

/-- What one `_mcp_request` call produces for its caller. -/
inductive RpcOutcome where
  /-- returned `data["result"]` -/
  | result (v : PyVal)
  /-- raised an exception with this message -/
  | raised (msg : String)
  /-- returned the whole decoded body (no `result` / `error` key) -/
  | passthrough (v : PyVal)
  /-- returned `None` (fell off the end of the function) -/
  | nothing
  deriving Repr, DecidableEq

/-- One Server-Sent-Events frame, with its `data` field already decoded
from JSON (a JSON-RPC frame is a JSON object). -/
structure SseEvent where
  event : String
  data : PyDict
  deriving Repr, DecidableEq

/-- The SSE branch of `_mcp_request` (`src/app.py` 178–190): scan the
stream for the first event named `"message"` and interpret its data as
the JSON-RPC response; if the stream ends without one, the function
falls through and returns `None`. -/
def processSseEvents : List SseEvent → RpcOutcome
  | [] => .nothing
  | e :: rest =>
    if e.event = "message" then
      match e.data.get "result" with
      | some r => .result r
      | none =>
        match e.data.get "error" with
        | some err => .raised ("MCP Error: " ++ mcpErrorText err)
        | none => .passthrough (.pdict e.data)
    else processSseEvents rest

/-! ## Session identifier — `mcp_initialize` / `call_mcp_tool`
(`src/app.py` 218–301) -/

/-- `mcp_initialize`'s post-processing of the `initialize` result
(`src/app.py` 229): the result itself when it is a dict, otherwise
wrapped as `{"serverInfo": result}`. -/
def initializeResultDict (result : PyVal) : PyDict :=
  match result with
  | .pdict kvs => kvs
  | v => .dcons "serverInfo" v .dnil

/-- The `session_id` variable of `call_mcp_tool` / `get_mcp_tools`
after the extraction at `src/app.py` 282–286 under its enclosing
`try`/`except`: `server_info.get("sessionId") or
server_info.get("serverInfo", {}).get("sessionId") or None`, with
Python's short-circuiting `or` on truthiness; an `AttributeError` from
a non-dict `serverInfo` value is caught at line 288 leaving the
identifier `None`. -/
def sessionIdFromInit (server_info : PyDict) : PyVal :=
  let a := (server_info.get "sessionId").getD .pnone
  if pyTruthy a then a
  else
    match (server_info.get "serverInfo").getD (.pdict .dnil) with
    | .pdict inner =>
      let b := (inner.get "sessionId").getD .pnone
      if pyTruthy b then b else .pnone
    | _ => .pnone

/-- The HTTP response to the `initialize` request: its headers and the
`result` member of its JSON-RPC body. -/
structure InitResponse where
  headers : List (String × String)
  result : PyVal
  deriving Repr, DecidableEq

/-- The session identifier `call_mcp_tool` passes to the subsequent
`tools/call` request, as a function of the `initialize` response
(`src/app.py` 276–295).  Only the response body is consulted. -/
def call_tool_session_id (r : InitResponse) : PyVal :=
  sessionIdFromInit (initializeResultDict r.result)

/-! ## Chat Orchestrator — `execute_function` / `chat`
(`src/app.py` 397–463) -/

/-- One tool call requested by the model; `arguments` is the value of
`json.loads(tool_call.function.arguments)` (`src/app.py` 444), i.e. the
decoded argument object. -/
structure ToolCall where
  id : String
  name : String
  arguments : PyVal
  deriving Repr, DecidableEq

/-- One tool-role message appended for a tool call
(`src/app.py` 446–451). -/
structure ToolMsg where
  tool_call_id : String
  role : String
  name : String
  content : String
  deriving Repr, DecidableEq

/-- A message of the conversation the orchestrator sends to the LLM
API: a plain role/content message, the assistant message carrying the
model's tool calls, or a tool-role result message. -/
inductive ChatMsg where
  | plain (role : String) (content : PyVal)
  | assistant (tool_calls : List ToolCall)
  | tool (m : ToolMsg)
  deriving Repr, DecidableEq

/-- `execute_function` (`src/app.py` 397–403): run the tool through the
MCP client, and turn any raised exception into the structured
`{"error": str(e)}` result.  The MCP round-trip is modelled by the
executor `ex`. -/
def execute_function (ex : String → PyVal → Except String PyVal)
    (name : String) (args : PyVal) : PyVal :=
  match ex name args with
  | .ok result => result
  | .error e => .pdict (.dcons "error" (.pstr e) .dnil)

/-- The `content` string of a tool-role message (`src/app.py` 450):
`json.dumps(out)` when the execution result is a dict or list, else
`str(out)`. -/
def toolContent (out : PyVal) : String :=
  match out with
  | .pdict _ => jsonDumps out
  | .plist _ => jsonDumps out
  | v => pyStr v

/-- The tool-role message built for one requested call
(`src/app.py` 443–451). -/
def toolMsgOf (ex : String → PyVal → Except String PyVal) (tc : ToolCall) : ToolMsg :=
  { tool_call_id := tc.id, role := "tool", name := tc.name,
    content := toolContent (execute_function ex tc.name tc.arguments) }

/-- The `results` list of the orchestrator's tool loop
(`src/app.py` 441–451): one tool-role message per requested call, in
the order the model returned them. -/
def runToolCalls (ex : String → PyVal → Except String PyVal)
    (tcs : List ToolCall) : List ToolMsg :=
  tcs.map (toolMsgOf ex)

/-- The system prompt of the chat endpoint (`src/app.py` 426). -/
def systemPrompt : String :=
  "You are a math assistant. Use the available tools to perform calculations."

/-- The `messages` list built at `src/app.py` 425–428 from the request
body `data`: the system prompt and the new user message
(`data.get("message")`), and nothing else. -/
def round1Messages (data : PyDict) : List ChatMsg :=
  [.plain "system" (.pstr systemPrompt),
   .plain "user" ((data.get "message").getD .pnone)]

/-- One chat-completion request sent to the LLM API. -/
structure ChatRequest where
  model : String
  messages : List ChatMsg
  tools : Option (List PyVal)
  tool_choice : Option String
  deriving Repr, DecidableEq

/-- The round-1 LLM request of the chat endpoint (`src/app.py` 410–435)
as a function of the cache state, the caller's token, the upstream
fetch outcome and the request body: `none` when the tool list comes
back empty (the endpoint answers 500 and makes no LLM call,
`src/app.py` 422–423), otherwise the request of `src/app.py` 430–435. -/
def chat_round1 (cache : List (String × List PyVal)) (token : String)
    (fetch : Except String (List PyDict)) (data : PyDict) : Option ChatRequest :=
  let fns := (get_openai_functions cache token fetch).2
  if fns = [] then none
  else some { model := "gpt-4o-mini", messages := round1Messages data,
              tools := some fns, tool_choice := some "auto" }

/-- The conversation sent in round 2 (`src/app.py` 453–459): the
round-1 messages, then the assistant tool-call message, then the
tool-result messages in order. -/
def chatRound2Messages (data : PyDict) (ex : String → PyVal → Except String PyVal)
    (tcs : List ToolCall) : List ChatMsg :=
  round1Messages data ++ [ChatMsg.assistant tcs] ++ (runToolCalls ex tcs).map ChatMsg.tool

/-- The round-2 LLM request (`src/app.py` 456–459): same model, the
extended conversation, and no tools parameter. -/
def chat_round2 (data : PyDict) (ex : String → PyVal → Except String PyVal)
    (tcs : List ToolCall) : ChatRequest :=
  { model := "gpt-4o-mini", messages := chatRound2Messages data ex tcs,
    tools := none, tool_choice := none }

/-! ## Helper lemmas -/

/-- A value satisfying `isPstr` is a string literal. -/
theorem isPstr_exists {v : PyVal} (h : isPstr v = true) : ∃ s, v = .pstr s := by
  cases v
  case pstr s => exact ⟨s, rfl⟩
  all_goals simp [isPstr] at h

/-- Appending a key to an association list that lacks it makes the key
found with the appended value. -/
theorem alistGet_append_of_none {α : Type} (l : List (String × α)) (k : String) (v : α)
    (h : alistGet l k = none) : alistGet (l ++ [(k, v)]) k = some v := by
  induction l with
  | nil => simp [alistGet]
  | cons p rest ih =>
    obtain ⟨k1, v1⟩ := p
    by_cases hk : k1 = k
    · simp [alistGet, hk] at h
    · simp only [List.cons_append, alistGet, if_neg hk] at h ⊢
      exact ih h

/-- On a claim-well-formed element the code's extraction yields exactly
the string the claim describes. -/
theorem itemText_of_wf (item : PyVal) (h : claimWF item = true) :
    itemText item = .pstr (specElementText item) := by
  cases item
  case pdict kvs =>
    by_cases ht : isTextType (kvs.get "type") = true
    · cases hx : kvs.get "text" with
      | none => simp [itemText, specElementText, ht, hx]
      | some v =>
        have hv : isPstr v = true := by
          simp only [claimWF, ht, if_true, hx, Option.getD_some] at h
          exact h
        obtain ⟨t, rfl⟩ := isPstr_exists hv
        simp [itemText, specElementText, ht, hx]
    · rw [Bool.not_eq_true] at ht
      cases hx : kvs.get "text" with
      | none => simp [itemText, specElementText, ht, hx]
      | some v =>
        have hv : isPstr v = true := by
          simp only [claimWF, ht, Bool.false_eq_true, if_false, hx] at h
          exact h
        obtain ⟨t, rfl⟩ := isPstr_exists hv
        simp [itemText, specElementText, ht, hx]
  all_goals rfl

/-- Mapping the code's per-element extraction over well-formed elements
produces exactly the claim's per-element strings. -/
theorem mapM_asStr_itemText : ∀ ts : List PyVal, (∀ item ∈ ts, claimWF item = true) →
    (ts.map itemText).mapM asStr = some (ts.map specElementText) := by
  intro ts
  induction ts with
  | nil => intro _; rfl
  | cons x rest ih =>
    intro h
    have hx := h x (List.mem_cons_self x rest)
    have hrest := ih (fun y hy => h y (List.mem_cons_of_mem x hy))
    rw [List.map_cons, List.map_cons, List.mapM_cons, itemText_of_wf x hx, hrest]
    rfl

/-- `joinTexts` over the code's extracted values is the claim's
newline-joined string. -/
theorem joinTexts_map_itemText (ts : List PyVal)
    (h : ∀ item ∈ ts, claimWF item = true) :
    joinTexts (ts.map itemText) = some (String.intercalate "\n" (ts.map specElementText)) := by
  unfold joinTexts
  rw [mapM_asStr_itemText ts h]
  rfl

/-- Every envelope id produced from counter state `s` exceeds `s`. -/
theorem envelopeIds_mem_gt (s : Nat) (cts : List ContentTypeKind) :
    ∀ x ∈ envelopeIds s cts, s < x := by
  induction cts generalizing s with
  | nil => simp [envelopeIds]
  | cons c rest ih =>
    intro x hx
    simp only [envelopeIds, List.mem_cons] at hx
    rcases hx with rfl | hx
    · omega
    · have := ih (s + 1) x hx
      omega

/-- Envelope ids are strictly increasing across a call sequence. -/
theorem envelopeIds_sorted (s : Nat) (cts : List ContentTypeKind) :
    List.Sorted (· < ·) (envelopeIds s cts) := by
  induction cts generalizing s with
  | nil => simp [envelopeIds]
  | cons c rest ih =>
    rw [envelopeIds, List.sorted_cons]
    exact ⟨fun b hb => envelopeIds_mem_gt (s + 1) rest b hb, ih (s + 1)⟩

/-- Every id on the wire from counter state `s` lies in `(s, s + n]`
where `n` is the number of calls. -/
theorem wireTrace_mem_bound (s : Nat) (cts : List ContentTypeKind) :
    ∀ x ∈ wireTrace s cts, s < x ∧ x ≤ s + cts.length := by
  induction cts generalizing s with
  | nil => simp [wireTrace]
  | cons c rest ih =>
    intro x hx
    simp only [wireTrace, List.mem_append] at hx
    rcases hx with hx | hx
    · have hx1 : x = s + 1 := by
        cases c <;> simp [wireIdsOfCall] at hx <;> omega
      subst hx1
      simp only [List.length_cons]
      omega
    · have := ih (s + 1) x hx
      simp only [List.length_cons]
      omega

/-- The wire trace is duplicate-free exactly when no response in the
sequence arrived as an SSE stream. -/
theorem wireTrace_nodup_iff (s : Nat) (cts : List ContentTypeKind) :
    (wireTrace s cts).Nodup ↔ ContentTypeKind.sse ∉ cts := by
  induction cts generalizing s with
  | nil => simp [wireTrace]
  | cons c rest ih =>
    have hd : (wireIdsOfCall c (s + 1)).Disjoint (wireTrace (s + 1) rest) := by
      intro x hx hy
      have hx1 : x = s + 1 := by
        cases c <;> simp [wireIdsOfCall] at hx <;> omega
      have := (wireTrace_mem_bound (s + 1) rest x hy).1
      omega
    have hhead : (wireIdsOfCall c (s + 1)).Nodup ↔ c ≠ ContentTypeKind.sse := by
      cases c <;> simp [wireIdsOfCall]
    rw [wireTrace, List.nodup_append]
    constructor
    · rintro ⟨h1, h2, -⟩ h3
      rcases List.mem_cons.mp h3 with h3 | h3
      · exact (hhead.mp h1) h3.symm
      · exact (ih (s + 1)).mp h2 h3
    · intro h
      refine ⟨hhead.mpr (fun hc => h (by simp [hc])), (ih (s + 1)).mpr (fun hr => h (by simp [hr])), hd⟩

/-! ## Claim theorems -/

/-- C4, counterexample.  The claim states that normalizing the schema
node `(type: array)` yields `(type: array, items: (type: number))`.  On
the code it does not: the normalized node carries no `items` key at all
(in particular it is not the claimed two-key dict, in either key
order). -/
theorem array_items_counterexample :
    (normalizeProp (.dcons "type" (.pstr "array") .dnil)).get "items" = none ∧
    normalizeProp (.dcons "type" (.pstr "array") .dnil)
      ≠ .dcons "type" (.pstr "array")
          (.dcons "items" (.pdict (.dcons "type" (.pstr "number") .dnil)) .dnil) ∧
    normalizeProp (.dcons "type" (.pstr "array") .dnil)
      ≠ .dcons "items" (.pdict (.dcons "type" (.pstr "number") .dnil))
          (.dcons "type" (.pstr "array") .dnil) := by
  refine ⟨rfl, by decide, by decide⟩

/-- C4, amended.  Normalizing a schema node keeps exactly the keys
`type` (defaulted to `"string"`) and `description` (defaulted to `""`);
no normalized node ever carries an `items` key, and in particular
normalizing `(type: array)` yields `(type: array, description: "")`. -/
theorem normalize_array_amended (d : PyDict) :
    (normalizeProp d).toAList.map Prod.fst = ["type", "description"] ∧
    (normalizeProp d).get "items" = none ∧
    normalizeProp (.dcons "type" (.pstr "array") .dnil)
      = .dcons "type" (.pstr "array") (.dcons "description" (.pstr "") .dnil) :=
  ⟨rfl, rfl, rfl⟩

/-- C5, counterexample.  The claim states that `enum` (among other
descriptive keys), when present in the source node, appears verbatim in
the normalized output; on the code the normalized node of a source node
carrying `enum` has no `enum` key. -/
theorem passthrough_counterexample :
    (normalizeProp (.dcons "type" (.pstr "string")
        (.dcons "enum" (.plist (.cons (.pstr "a") (.cons (.pstr "b") .nil))) .dnil))).get "enum"
      = none := rfl

/-- C5, amended.  Of the descriptive/constraint keys only `description`
survives normalization (verbatim when present, defaulted to `""`
otherwise); `enum, default, minimum, maximum, minItems, maxItems,
minLength, maxLength, pattern, format, title, examples` are all
dropped. -/
theorem passthrough_amended (d : PyDict) :
    (normalizeProp d).get "description" = some ((d.get "description").getD (.pstr "")) ∧
    ∀ k ∈ (["enum", "default", "minimum", "maximum", "minItems", "maxItems",
            "minLength", "maxLength", "pattern", "format", "title",
            "examples"] : List String),
      (normalizeProp d).get k = none := by
  refine ⟨rfl, ?_⟩
  intro k hk
  fin_cases hk <;> rfl

/-- Witness for C5's amended theorem at a concrete node. -/
theorem passthrough_amended_witness :
    (normalizeProp PyDict.dnil).get "description" = some (.pstr "") ∧
    (normalizeProp PyDict.dnil).get "enum" = none :=
  ⟨(passthrough_amended PyDict.dnil).1,
   (passthrough_amended PyDict.dnil).2 "enum" (by decide)⟩

/-- C6.  The schema-node normalization of `convert_mcp_tool_to_openai`
is idempotent: re-normalizing an already-normalized node is a no-op. -/
theorem normalizeProp_idempotent (d : PyDict) :
    normalizeProp (normalizeProp d) = normalizeProp d := rfl

/-- C7.  On a cache miss whose upstream fetch of tool definitions
fails — the fetch raises, or the fetched tools make the conversion
raise — the tool cache stores the empty list under the caller's token
and returns the empty list; the failure does not propagate (the get is
total by type). -/
theorem cache_fetch_failure (cache : List (String × List PyVal)) (token : String)
    (fetch : Except String (List PyDict)) (h : alistGet cache token = none)
    (hfail : (∃ e, fetch = .error e) ∨
      (∃ tools, fetch = .ok tools ∧ tools.mapM convert_mcp_tool_to_openai = none)) :
    (get_openai_functions cache token fetch).2 = [] ∧
    (get_openai_functions cache token fetch).1 = cache ++ [(token, [])] ∧
    alistGet (get_openai_functions cache token fetch).1 token = some [] := by
  unfold get_openai_functions
  rw [h]
  rcases hfail with ⟨e, rfl⟩ | ⟨tools, rfl, hconv⟩
  · exact ⟨rfl, rfl, alistGet_append_of_none cache token [] h⟩
  · simp only [hconv]
    exact ⟨trivial, trivial, alistGet_append_of_none cache token [] h⟩

/-- Witness for C7 at the empty cache, on the conversion-raises path: a
fetched tool whose `inputSchema` is not a dict makes
`convert_mcp_tool_to_openai` raise, and the cache still stores and
returns the empty list. -/
theorem cache_fetch_failure_witness :
    alistGet ([] : List (String × List PyVal)) "tok" = none ∧
    [PyDict.dcons "inputSchema" (.pstr "oops") .dnil].mapM convert_mcp_tool_to_openai
      = none ∧
    ((get_openai_functions [] "tok"
        (.ok [PyDict.dcons "inputSchema" (.pstr "oops") .dnil])).2 = [] ∧
     (get_openai_functions [] "tok"
        (.ok [PyDict.dcons "inputSchema" (.pstr "oops") .dnil])).1 = [("tok", [])] ∧
     alistGet (get_openai_functions [] "tok"
        (.ok [PyDict.dcons "inputSchema" (.pstr "oops") .dnil])).1 "tok" = some []) :=
  ⟨rfl, rfl,
   cache_fetch_failure [] "tok" (.ok [PyDict.dcons "inputSchema" (.pstr "oops") .dnil])
     rfl (Or.inr ⟨[PyDict.dcons "inputSchema" (.pstr "oops") .dnil], rfl, rfl⟩)⟩

/-- C9, counterexample.  The claim states that within one session no
request id is ever reused on the wire across the HTTP requests actually
sent.  A single `_mcp_request` call whose response arrives as
`text/event-stream` re-POSTs the same envelope through the SSE client,
so id `1` goes on the wire twice. -/
theorem request_id_reuse_counterexample :
    envelopeIds 0 [ContentTypeKind.sse] = [1] ∧
    wireTrace 0 [ContentTypeKind.sse] = [1, 1] ∧
    ¬ (wireTrace 0 [ContentTypeKind.sse]).Nodup := by
  refine ⟨rfl, rfl, by decide⟩

/-- C9, amended.  Envelope ids are strictly increasing across the
sequence of `_mcp_request` calls (no id is used for two different
envelopes), but the wire trace is duplicate-free exactly when no
response arrived as an SSE stream: an SSE response makes the transport
re-send the same envelope, repeating its id on the wire. -/
theorem request_ids_amended (s : Nat) (cts : List ContentTypeKind) :
    List.Sorted (· < ·) (envelopeIds s cts) ∧
    ((wireTrace s cts).Nodup ↔ ContentTypeKind.sse ∉ cts) :=
  ⟨envelopeIds_sorted s cts, wireTrace_nodup_iff s cts⟩

/-- C10.  A transport send whose `text/event-stream` response ends
without any event named `"message"` returns `None`: neither a JSON-RPC
result nor a raised error is produced. -/
theorem sse_no_message_returns_none (es : List SseEvent)
    (h : ∀ e ∈ es, e.event ≠ "message") :
    processSseEvents es = RpcOutcome.nothing ∧
    (∀ v, processSseEvents es ≠ RpcOutcome.result v) ∧
    (∀ m, processSseEvents es ≠ RpcOutcome.raised m) := by
  have hmain : ∀ es2 : List SseEvent, (∀ e ∈ es2, e.event ≠ "message") →
      processSseEvents es2 = RpcOutcome.nothing := by
    intro es2
    induction es2 with
    | nil => intro _; rfl
    | cons e rest ih =>
      intro h2
      have he : ¬ e.event = "message" := h2 e (List.mem_cons_self e rest)
      rw [processSseEvents, if_neg he]
      exact ih (fun x hx => h2 x (List.mem_cons_of_mem e hx))
  refine ⟨hmain es h, ?_, ?_⟩
  · intro v hv
    rw [hmain es h] at hv
    exact RpcOutcome.noConfusion hv
  · intro m hm
    rw [hmain es h] at hm
    exact RpcOutcome.noConfusion hm

/-- Witness for C10 on a stream holding a single `"ping"` event. -/
theorem sse_no_message_witness :
    (∀ e ∈ [SseEvent.mk "ping" PyDict.dnil], e.event ≠ "message") ∧
    processSseEvents [SseEvent.mk "ping" PyDict.dnil] = RpcOutcome.nothing :=
  ⟨by decide, (sse_no_message_returns_none [SseEvent.mk "ping" PyDict.dnil] (by decide)).1⟩

/-- C8, counterexample.  The claim states the session identifier is
obtained from the `mcp-session-id` response header.  For an
`initialize` response whose header carries `mcp-session-id: abc` but
whose result body has no `sessionId`, the code extracts no session
identifier, and the subsequent request's headers carry no
`mcp-session-id` — the response header is never consulted. -/
theorem session_header_counterexample :
    alistGet (InitResponse.mk [("mcp-session-id", "abc")] (.pdict .dnil)).headers
        "mcp-session-id" = some "abc" ∧
    call_tool_session_id (InitResponse.mk [("mcp-session-id", "abc")] (.pdict .dnil))
      = .pnone ∧
    alistGet (requestHeaders "tok"
        (call_tool_session_id (InitResponse.mk [("mcp-session-id", "abc")] (.pdict .dnil))))
        "mcp-session-id" = none :=
  ⟨rfl, rfl, rfl⟩

/-- C8, amended.  The session identifier is obtained from the
`initialize` result body (`sessionId`, else `serverInfo.sessionId`) —
the response headers are never consulted; when (and only when) the
extracted identifier is truthy it is attached as the `mcp-session-id`
header of the subsequent request of that invocation, and it is never
sent before it is known (the `initialize` request itself carries no
`mcp-session-id` header). -/
theorem session_id_amended (r r' : InitResponse) (token : String) :
    alistGet (requestHeaders token PyVal.pnone) "mcp-session-id" = none ∧
    (r.result = r'.result → call_tool_session_id r = call_tool_session_id r') ∧
    (pyTruthy (call_tool_session_id r) = true →
      alistGet (requestHeaders token (call_tool_session_id r)) "mcp-session-id"
        = some (pyStr (call_tool_session_id r))) ∧
    (pyTruthy (call_tool_session_id r) = false →
      alistGet (requestHeaders token (call_tool_session_id r)) "mcp-session-id" = none) := by
  refine ⟨rfl, ?_, ?_, ?_⟩
  · intro h
    unfold call_tool_session_id
    rw [h]
  · intro h
    unfold requestHeaders
    rw [h]
    rfl
  · intro h
    unfold requestHeaders
    rw [h]
    rfl

/-- Witness for C8's amended theorem on a response whose body does
carry a `sessionId`. -/
theorem session_id_amended_witness :
    call_tool_session_id
        (InitResponse.mk [] (.pdict (.dcons "sessionId" (.pstr "s-1") .dnil))) = .pstr "s-1" ∧
    ((InitResponse.mk [] (.pdict (.dcons "sessionId" (.pstr "s-1") .dnil))).result
        = (InitResponse.mk [("x", "y")] (.pdict (.dcons "sessionId" (.pstr "s-1") .dnil))).result) ∧
    pyTruthy (call_tool_session_id
        (InitResponse.mk [] (.pdict (.dcons "sessionId" (.pstr "s-1") .dnil)))) = true ∧
    alistGet (requestHeaders "tok"
        (call_tool_session_id
          (InitResponse.mk [] (.pdict (.dcons "sessionId" (.pstr "s-1") .dnil)))))
        "mcp-session-id" = some "s-1" := by
  refine ⟨rfl, rfl, rfl, ?_⟩
  exact (session_id_amended
    (InitResponse.mk [] (.pdict (.dcons "sessionId" (.pstr "s-1") .dnil)))
    (InitResponse.mk [] (.pdict (.dcons "sessionId" (.pstr "s-1") .dnil)))
    "tok").2.2.1 rfl

/-- The request body of a chat turn whose caller supplied both a new
message and a conversation history. -/
def dataWithHistory : PyDict :=
  .dcons "message" (.pstr "hi")
    (.dcons "history"
      (.plist (.cons (.pdict (.dcons "role" (.pstr "user")
        (.dcons "content" (.pstr "earlier") .dnil))) .nil)) .dnil)

/-- A cache state holding one (opaque) function spec for token
`"tok"`. -/
def cacheOneTool : List (String × List PyVal) := [("tok", [.pstr "fnspec"])]

/-- C2, counterexample.  The claim states the round-1 conversation is
system prompt + caller-supplied history + new user message.  For a
request carrying a one-message history, the code sends exactly
`[system prompt, new user message]` — the history is ignored (the
endpoint reads only the `message` field), so the conversation is not
the claimed three-message list. -/
theorem round1_history_counterexample :
    chat_round1 cacheOneTool "tok" (.ok []) dataWithHistory
      = some { model := "gpt-4o-mini",
               messages := [.plain "system" (.pstr systemPrompt),
                            .plain "user" (.pstr "hi")],
               tools := some [.pstr "fnspec"], tool_choice := some "auto" } ∧
    (chat_round1 cacheOneTool "tok" (.ok []) dataWithHistory).map ChatRequest.messages
      ≠ some [ChatMsg.plain "system" (.pstr systemPrompt),
              ChatMsg.plain "user" (.pstr "earlier"),
              ChatMsg.plain "user" (.pstr "hi")] := by
  refine ⟨by decide, by decide⟩

/-- C2, amended.  For every chat request for which the tool cache
yields a nonempty list, the round-1 call to the LLM API is sent the
conversation consisting of exactly the system prompt and the new user
message (caller-supplied history is not part of the request model and
is ignored), together with the cached FunctionSpecs and automatic tool
selection; when the cache yields an empty list no round-1 call is
made. -/
theorem round1_amended (cache : List (String × List PyVal)) (token : String)
    (fetch : Except String (List PyDict)) (data : PyDict)
    (h : (get_openai_functions cache token fetch).2 ≠ []) :
    chat_round1 cache token fetch data
      = some { model := "gpt-4o-mini",
               messages := [ChatMsg.plain "system" (.pstr systemPrompt),
                            ChatMsg.plain "user" ((data.get "message").getD .pnone)],
               tools := some (get_openai_functions cache token fetch).2,
               tool_choice := some "auto" } ∧
    (∀ (cache2 : List (String × List PyVal)) (token2 : String)
        (fetch2 : Except String (List PyDict)) (data2 : PyDict),
      (get_openai_functions cache2 token2 fetch2).2 = [] →
        chat_round1 cache2 token2 fetch2 data2 = none) := by
  constructor
  · simp only [chat_round1, if_neg h]
    rfl
  · intro cache2 token2 fetch2 data2 h2
    simp only [chat_round1, if_pos h2]

/-- Witness for C2's amended theorem at a concrete cache hit. -/
theorem round1_amended_witness :
    (get_openai_functions cacheOneTool "tok" (.ok [])).2 ≠ [] ∧
    chat_round1 cacheOneTool "tok" (.ok []) (.dcons "message" (.pstr "hi") .dnil)
      = some { model := "gpt-4o-mini",
               messages := [ChatMsg.plain "system" (.pstr systemPrompt),
                            ChatMsg.plain "user" (.pstr "hi")],
               tools := some [.pstr "fnspec"], tool_choice := some "auto" } :=
  ⟨by decide,
   (round1_amended cacheOneTool "tok" (.ok []) (.dcons "message" (.pstr "hi") .dnil)
     (by decide)).1⟩

/-- C1.  For a model response requesting the calls `tcs`, the
orchestrator builds one tool-role message per requested call, in the
order returned: the `i`-th message carries the `i`-th call's id and
name and the string content of its execution result; a call whose
execution raised `e` gets the serialized structured `(error: e)` dict
as its content instead of aborting the batch; and the round-2
conversation is the round-1 messages, the assistant tool-call message,
then exactly these tool messages in order. -/
theorem chat_tool_batch (ex : String → PyVal → Except String PyVal)
    (data : PyDict) (tcs : List ToolCall) (i : Nat) (h : i < tcs.length) :
    (runToolCalls ex tcs).length = tcs.length ∧
    (runToolCalls ex tcs)[i]? =
      some { tool_call_id := tcs[i].id, role := "tool", name := tcs[i].name,
             content := toolContent (execute_function ex tcs[i].name tcs[i].arguments) } ∧
    (∀ e, ex tcs[i].name tcs[i].arguments = Except.error e →
      toolContent (execute_function ex tcs[i].name tcs[i].arguments)
        = jsonDumps (.pdict (.dcons "error" (.pstr e) .dnil))) ∧
    chatRound2Messages data ex tcs
      = round1Messages data ++ [ChatMsg.assistant tcs]
        ++ (runToolCalls ex tcs).map ChatMsg.tool := by
  refine ⟨List.length_map _ _, ?_, ?_, rfl⟩
  · rw [runToolCalls, List.getElem?_map, List.getElem?_eq_getElem h]
    rfl
  · intro e he
    unfold execute_function
    rw [he]
    rfl

/-- The executor of C1's witness: `"add"` succeeds with `"4"`, every
other tool raises `"boom"`. -/
def exW : String → PyVal → Except String PyVal :=
  fun name _ => if name = "add" then .ok (.pstr "4") else .error "boom"

/-- The two tool calls of C1's witness; the first one's execution
raises. -/
def tcsW : List ToolCall :=
  [{ id := "id1", name := "bad", arguments := .pnone },
   { id := "id2", name := "add", arguments := .pnone }]

/-- Witness for C1 on a two-call batch whose first call errors: both
tool messages are produced in order and the first one's content is the
serialized structured error. -/
theorem chat_tool_batch_witness :
    (0 < tcsW.length ∧
     ((runToolCalls exW tcsW).length = tcsW.length ∧
      (runToolCalls exW tcsW)[0]? =
        some { tool_call_id := (tcsW.get ⟨0, by decide⟩).id, role := "tool",
               name := (tcsW.get ⟨0, by decide⟩).name,
               content := toolContent (execute_function exW (tcsW.get ⟨0, by decide⟩).name
                 (tcsW.get ⟨0, by decide⟩).arguments) } ∧
      (∀ e, exW (tcsW.get ⟨0, by decide⟩).name (tcsW.get ⟨0, by decide⟩).arguments
          = Except.error e →
        toolContent (execute_function exW (tcsW.get ⟨0, by decide⟩).name
            (tcsW.get ⟨0, by decide⟩).arguments)
          = jsonDumps (.pdict (.dcons "error" (.pstr e) .dnil))) ∧
      chatRound2Messages PyDict.dnil exW tcsW
        = round1Messages PyDict.dnil ++ [ChatMsg.assistant tcsW]
          ++ (runToolCalls exW tcsW).map ChatMsg.tool)) ∧
    (runToolCalls exW tcsW).map ToolMsg.content
      = ["\x7b\"error\": \"boom\"\x7d", "4"] :=
  ⟨⟨by decide, chat_tool_batch exW PyDict.dnil tcsW 0 (by decide)⟩, by decide⟩

/-- C3.  For a tool-call result whose `content` field holds a non-empty
list of (well-formed) elements, the parser returns the single string
joining, in order and dropping none, each element's text — its `text`
when it is text-typed or otherwise carries a `text` field, else its
stringification — with `"\n"`; when `content` is absent or an empty
list the result is returned unchanged. -/
theorem parse_tool_result_spec (kvs : PyDict) (content : PyList)
    (hc : kvs.get "content" = some (.plist content))
    (hne : content ≠ .nil)
    (hwf : ∀ item ∈ content.toList, claimWF item = true) :
    (parse_tool_result (.pdict kvs)
        = some (.pstr (String.intercalate "\n" (content.toList.map specElementText))) ∧
      (content.toList.map specElementText).length = content.toList.length) ∧
    (∀ kvs2 : PyDict, kvs2.get "content" = none →
      parse_tool_result (.pdict kvs2) = some (.pdict kvs2)) ∧
    (∀ kvs2 : PyDict, kvs2.get "content" = some (.plist .nil) →
      parse_tool_result (.pdict kvs2) = some (.pdict kvs2)) := by
  refine ⟨⟨?_, List.length_map _ _⟩, ?_, ?_⟩
  · have hlen : content.toList.length > 0 := by
      cases content with
      | nil => exact absurd rfl hne
      | cons a b => simp [PyList.toList]
    have hj := joinTexts_map_itemText content.toList hwf
    simp only [parse_tool_result, hc, if_pos hlen, hj]
  · intro kvs2 h2
    simp only [parse_tool_result, h2]
  · intro kvs2 h2
    simp only [parse_tool_result, h2, PyList.toList, List.length_nil, gt_iff_lt,
      Nat.lt_irrefl, if_false]

/-- The concrete two-part content of C3's witness. -/
def contentW : PyList :=
  .cons (.pdict (.dcons "type" (.pstr "text") (.dcons "text" (.pstr "a") .dnil)))
    (.cons (.pdict (.dcons "type" (.pstr "text") (.dcons "text" (.pstr "b") .dnil))) .nil)

/-- The concrete tool-call result of C3's witness. -/
def kvsW : PyDict := .dcons "content" (.plist contentW) .dnil

/-- Witness for C3: `(content: [(type: text, text: a), (type: text,
text: b)])` parses to `"a\nb"`. -/
theorem parse_tool_result_spec_witness :
    kvsW.get "content" = some (.plist contentW) ∧
    contentW ≠ .nil ∧
    (∀ item ∈ contentW.toList, claimWF item = true) ∧
    parse_tool_result (.pdict kvsW) = some (.pstr "a\nb") := by
  refine ⟨rfl, by decide, by decide, ?_⟩
  exact (parse_tool_result_spec kvsW contentW rfl (by decide) (by decide)).1.1
